import Mathlib

/-!
Shallow embedding of `cmd/notify-mailer/main.go` (boulder notify-mailer):
the `interval` checkpoint type with its `ok` validation, the `mailer`
delivery engine with its `ok` validation and `run` send loop, and the
contact-resolution pipeline `updateEmail` / `resolveDestinations`.

Go `int` and `time.Duration` are modelled as `Int`; Go errors as `String`
messages carried in `Option`/`Except`.  Effects (transport sends, pacing
sleeps, database lookups) are reified as explicit event traces returned
alongside the result.  Go's `strings.TrimSpace` is modelled by an explicit
`trimSpace` over the string's character list.
-/

/-- isSpace models Go's `unicode.IsSpace` on the characters that occur in
email handling: the ASCII whitespace characters and the two Latin-1 ones
(NEL, NBSP). -/
def isSpace (c : Char) : Bool :=
  c = ' ' || c = '\t' || c = '\n' || c = '\x0b' || c = '\x0c' || c = '\r' ||
    c = '\u0085' || c = '\u00A0'

/-- trimSpace models Go's `strings.TrimSpace`: remove leading and trailing
whitespace characters. -/
def trimSpace (s : String) : String :=
  ⟨((s.data.dropWhile isSpace).reverse.dropWhile isSpace).reverse⟩

/-- interval mirrors the Go struct `interval { start, end int }`.
Go `int` is modelled as `Int`. -/
structure interval where
  start : Int
  «end» : Int
deriving Repr, DecidableEq

/-- interval.ok mirrors `(*interval).ok`: error when start or end is
negative, or when start > end with end nonzero; nil (none) otherwise. -/
def interval.ok (i : interval) : Option String :=
  if i.start < 0 ∨ i.«end» < 0 then
    some "interval start and end must both be positive integers"
  else if i.start > i.«end» ∧ i.«end» ≠ 0 then
    some "interval start value is greater than end value"
  else
    none

/-- Event reifies the observable effects of the send loop: a call to
`m.mailer.SendMail(to, subject, body)` and a call to `m.clk.Sleep(d)`. -/
inductive Event where
  | send (recipients : List String) (subject : String) (body : String)
  | sleep (d : Int)
deriving Repr, DecidableEq

/-- RunOutcome is the result of `(*mailer).run`: nil, an error (either a
validation error from `ok` or a transport error propagated unchanged from
`SendMail`), or a Go runtime panic from an out-of-range slice expression. -/
inductive RunOutcome where
  | ok
  | error (e : String)
  | outOfRange
deriving Repr, DecidableEq

/-- mailer mirrors the Go struct `mailer`, keeping the fields the core logic
reads: the transport capability (`mailer bmail.Mailer`, modelled by its
`SendMail` behaviour, `none` meaning a nil error), subject, body template,
destinations, checkpoint and sleep interval.  The clock, logger and db
handle are not read by `ok`/`run`'s logic beyond the reified effects. -/
structure mailer where
  sendMail : List String → String → String → Option String
  subject : String
  emailTemplate : String
  destinations : List String
  checkpoint : interval
  sleepInterval : Int

/-- mailer.ok mirrors `(*mailer).ok`: checkpoint range must be ok, the
checkpoint start must not exceed the number of destinations, and the sleep
interval must not be negative. -/
def mailer.ok (m : mailer) : Option String :=
  match m.checkpoint.ok with
  | some e => some e
  | none =>
    if m.checkpoint.start > (m.destinations.length : Int) then
      some "interval start value is greater than number of destinations"
    else if m.sleepInterval < 0 then
      some "sleep interval is < 0"
    else
      none

/-- normEnd is the checkpoint end after the normalisation step of `run`:
if `m.checkpoint.end == 0` it becomes `len(m.destinations)`. -/
def mailer.normEnd (m : mailer) : Int :=
  if m.checkpoint.«end» = 0 then (m.destinations.length : Int)
  else m.checkpoint.«end»

/-- slice is the Go slice expression
`m.destinations[m.checkpoint.start:end]` (with the normalised end),
meaningful when the bounds are in range. -/
def mailer.slice (m : mailer) : List String :=
  (m.destinations.drop m.checkpoint.start.toNat).take
    (m.normEnd - m.checkpoint.start).toNat

/-- sendLoop is the body of `run`'s for-loop over the selected slice:
skip a destination that trims to empty; otherwise call SendMail, returning
its error immediately on failure, and sleep after each successful send. -/
def sendLoop (m : mailer) : List String → List Event × RunOutcome
  | [] => ([], .ok)
  | dest :: rest =>
    if trimSpace dest = "" then sendLoop m rest
    else
      match m.sendMail [dest] m.subject m.emailTemplate with
      | some e => ([.send [dest] m.subject m.emailTemplate], .error e)
      | none =>
        let r := sendLoop m rest
        (.send [dest] m.subject m.emailTemplate :: .sleep m.sleepInterval :: r.1, r.2)

/-- run mirrors `(*mailer).run`: validate via `ok`, normalise the
checkpoint end, then walk the selected slice.  Go evaluates
`m.destinations[start:end]` only under `0 <= start <= end <= len`; outside
that range it panics with a slice-bounds-out-of-range runtime error, which
the embedding makes explicit as the `outOfRange` outcome. -/
def mailer.run (m : mailer) : List Event × RunOutcome :=
  match m.ok with
  | some e => ([], .error e)
  | none =>
    if m.normEnd > (m.destinations.length : Int) ∨ m.checkpoint.start > m.normEnd then
      ([], .outOfRange)
    else
      sendLoop m m.slice

/-- sendStep is the event trace one destination contributes on the success
path of the send loop: nothing when it trims to empty, otherwise its send
followed by the pacing sleep. -/
def sendStep (m : mailer) (dest : String) : List Event :=
  if trimSpace dest = "" then []
  else [.send [dest] m.subject m.emailTemplate, .sleep m.sleepInterval]

/-- MailerDestination mirrors `bmail.MailerDestination` as used by this
file: a registration ID, the serialized contact blob, and the derived
email address. -/
structure MailerDestination where
  id : Int
  contact : String
  email : String
deriving Repr, DecidableEq

/-- selectOne models the external store capability at the exact query
`updateEmail` issues: `SELECT id, contact FROM registrations WHERE contact
!= 'null' AND id = :id`.  The store is a list of (id, contact) rows; the
query returns the contact blob of a row with this id whose contact column
is not the literal string 'null', and — as the spec's AccountLookup
documents (`fails with NotFoundError`) and gorp's SelectOne does via
sql.ErrNoRows — fails when no such row exists. -/
def selectOne (store : List (Int × String)) (id : Int) : Except String String :=
  match store.find? (fun r => r.1 == id && r.2 != "null") with
  | some r => .ok r.2
  | none => .error "sql: no rows in result set"

/-- updateEmail mirrors the Go `updateEmail`: select the freshest contact
blob for the registration ID into the contact object, then derive the
Email field from the contact JSON via `UnmarshalEmail`.  `UnmarshalEmail`
is code of the repository outside this file, so its parse behaviour is the
abstract parameter `parse`.
Modelled from the spec: `bmail.MailerDestination.UnmarshalEmail` (not in
the source tree) "Parses `contactBlob` into an email address", possibly
yielding a blank email, possibly failing. -/
def updateEmail (parse : String → Except String String)
    (store : List (Int × String)) (c : MailerDestination) :
    Except String MailerDestination :=
  match selectOne store c.id with
  | .error e => .error e
  | .ok blob =>
    match parse blob with
    | .error e => .error e
    | .ok email => .ok { c with contact := blob, email := email }

/-- resolveLoop is the first loop of `resolveDestinations`: refresh each
contact via `updateEmail` (aborting on the first failure), skip blank
emails, and collect the rest into the dedup map, here modelled as the
duplicate-free list of emails in first-occurrence order.  The first
component of the result is the trace of registration IDs looked up. -/
def resolveLoop (parse : String → Except String String)
    (store : List (Int × String)) :
    List MailerDestination → List String → List Int × Except String (List String)
  | [], acc => ([], .ok acc)
  | c :: rest, acc =>
    match updateEmail parse store c with
    | .error e => ([c.id], .error e)
    | .ok c' =>
      let acc' :=
        if trimSpace c'.email = "" then acc
        else if c'.email ∈ acc then acc else acc ++ [c'.email]
      let r := resolveLoop parse store rest acc'
      (c.id :: r.1, r.2)

/-- charsLe is lexicographic comparison of character sequences by code
point; on valid UTF-8 this coincides with Go's byte-wise comparison of the
encoded strings. -/
def charsLe : List Char → List Char → Bool
  | [], _ => true
  | _ :: _, [] => false
  | a :: as, b :: bs =>
    if a.toNat < b.toNat then true
    else if b.toNat < a.toNat then false
    else charsLe as bs

/-- strLe is Go's `<=` on strings: ascending lexicographic (byte-wise)
order. -/
def strLe (a b : String) : Bool :=
  charsLe a.data b.data

/-- sortStrings models `sort.Strings`: sort a list of strings in ascending
lexicographic (byte-wise) order. -/
def sortStrings (l : List String) : List String :=
  List.insertionSort (fun a b => strLe a b = true) l

/-- resolveDestinations mirrors the Go `resolveDestinations`: update every
contact, dedupe the non-blank emails, and return them sorted.  The trace
of lookups performed is returned alongside. -/
def resolveDestinations (parse : String → Except String String)
    (store : List (Int × String)) (contacts : List MailerDestination) :
    List Int × Except String (List String) :=
  let r := resolveLoop parse store contacts []
  (r.1, r.2.map sortStrings)

/-- emailOf projects the email a descriptor resolves to: `some` the email
when `updateEmail` succeeds, `none` when it fails. -/
def emailOf (parse : String → Except String String)
    (store : List (Int × String)) (c : MailerDestination) : Option String :=
  match updateEmail parse store c with
  | .ok c' => some c'.email
  | .error _ => none

/-- parseId is a concrete parse behaviour used in witnesses: the contact
blob itself is the email. -/
def parseId : String → Except String String := fun s => .ok s

/-- transportFailB is a concrete transport used in witnesses: it fails
with "boom" exactly on recipient list ["b@x"]. -/
def transportFailB : List String → String → String → Option String :=
  fun rcpt _ _ => if rcpt = ["b@x"] then some "boom" else none

/-- mailerABC is the spec's fail-fast example: destinations a@x, b@x, c@x
with a transport failing on the second. -/
def mailerABC : mailer :=
  { sendMail := transportFailB
    subject := "subj", emailTemplate := "body"
    destinations := ["a@x", "b@x", "c@x"]
    checkpoint := { start := 0, «end» := 0 }
    sleepInterval := 5 }

/-- mailerA is a one-destination job whose transport always fails with the
constant error "boom". -/
def mailerA : mailer :=
  { sendMail := fun _ _ _ => some "boom"
    subject := "subj", emailTemplate := "body"
    destinations := ["a@x"]
    checkpoint := { start := 0, «end» := 0 }
    sleepInterval := 0 }

/-- mailerZ is mailerA with a different destination and the same transport
error. -/
def mailerZ : mailer :=
  { sendMail := fun _ _ _ => some "boom"
    subject := "subj", emailTemplate := "body"
    destinations := ["z@y"]
    checkpoint := { start := 0, «end» := 0 }
    sleepInterval := 0 }

/-- mailerOOR has a checkpoint end past the destination count: validation
passes yet the slice expression is out of range. -/
def mailerOOR : mailer :=
  { sendMail := fun _ _ _ => none
    subject := "subj", emailTemplate := "body"
    destinations := ["a@x"]
    checkpoint := { start := 0, «end» := 2 }
    sleepInterval := 0 }

/-- mailerBadStart has a checkpoint start past the destination count. -/
def mailerBadStart : mailer :=
  { sendMail := fun _ _ _ => none
    subject := "subj", emailTemplate := "body"
    destinations := []
    checkpoint := { start := 1, «end» := 0 }
    sleepInterval := 0 }

/-- mailerFive is the spec's end-sentinel example: a five-element
destination list with checkpoint end 0 and start 2. -/
def mailerFive : mailer :=
  { sendMail := fun _ _ _ => none
    subject := "subj", emailTemplate := "body"
    destinations := ["a@x", "b@x", "c@x", "d@x", "e@x"]
    checkpoint := { start := 2, «end» := 0 }
    sleepInterval := 3 }

/-- mailerBlank has a whitespace-only destination between two real ones
and an all-succeeding transport. -/
def mailerBlank : mailer :=
  { sendMail := fun _ _ _ => none
    subject := "subj", emailTemplate := "body"
    destinations := ["a@x", "  ", "c@x"]
    checkpoint := { start := 0, «end» := 0 }
    sleepInterval := 7 }

/-! ### Helper lemmas -/

/-- charToNat_inj: characters with equal code points are equal. -/
theorem charToNat_inj {a b : Char} (h : a.toNat = b.toNat) : a = b := by
  have hv : a.val = b.val := UInt32.ext h
  cases a; cases b; simp_all

/-- stringData_inj: strings with equal character lists are equal. -/
theorem stringData_inj {a b : String} (h : a.data = b.data) : a = b := by
  cases a; cases b; simp_all

/-- charsLe_total: lexicographic comparison is total. -/
theorem charsLe_total (as : List Char) :
    ∀ bs, charsLe as bs = true ∨ charsLe bs as = true := by
  induction as with
  | nil => intro bs; left; rfl
  | cons a as ih =>
    intro bs
    cases bs with
    | nil => right; rfl
    | cons b bs' =>
      unfold charsLe
      rcases Nat.lt_trichotomy a.toNat b.toNat with h | h | h
      · left; rw [if_pos h]
      · rw [if_neg (by omega), if_neg (by omega), if_neg (by omega),
          if_neg (by omega)]
        exact ih bs'
      · right; rw [if_pos h]

/-- charsLe_trans: lexicographic comparison is transitive. -/
theorem charsLe_trans (as : List Char) :
    ∀ bs cs, charsLe as bs = true → charsLe bs cs = true →
      charsLe as cs = true := by
  induction as with
  | nil => intro bs cs _ _; rfl
  | cons a as ih =>
    intro bs cs h1 h2
    cases bs with
    | nil => simp [charsLe] at h1
    | cons b bs' =>
      cases cs with
      | nil => simp [charsLe] at h2
      | cons c cs' =>
        unfold charsLe at h1 h2 ⊢
        split_ifs at h1 h2 ⊢ <;> first
          | rfl
          | exact ih bs' cs' h1 h2
          | omega

/-- charsLe_antisymm: lexicographic comparison is antisymmetric. -/
theorem charsLe_antisymm (as : List Char) :
    ∀ bs, charsLe as bs = true → charsLe bs as = true → as = bs := by
  induction as with
  | nil =>
    intro bs h1 h2
    cases bs with
    | nil => rfl
    | cons b bs' => simp [charsLe] at h2
  | cons a as ih =>
    intro bs h1 h2
    cases bs with
    | nil => simp [charsLe] at h1
    | cons b bs' =>
      unfold charsLe at h1 h2
      split_ifs at h1 h2 <;> try omega
      have hab : a = b := charToNat_inj (by omega)
      subst hab
      rw [ih bs' h1 h2]

instance : IsTotal String (fun a b => strLe a b = true) :=
  ⟨fun a b => charsLe_total a.data b.data⟩

instance : IsTrans String (fun a b => strLe a b = true) :=
  ⟨fun a b c => charsLe_trans a.data b.data c.data⟩

instance : IsAntisymm String (fun a b => strLe a b = true) :=
  ⟨fun a b h1 h2 => stringData_inj (charsLe_antisymm a.data b.data h1 h2)⟩

/-- mailer_ok_facts: what a passing validation guarantees about the job. -/
theorem mailer_ok_facts (m : mailer) (hok : m.ok = none) :
    0 ≤ m.checkpoint.start ∧ 0 ≤ m.checkpoint.«end» ∧
    (m.checkpoint.start ≤ m.checkpoint.«end» ∨ m.checkpoint.«end» = 0) ∧
    m.checkpoint.start ≤ (m.destinations.length : Int) ∧
    0 ≤ m.sleepInterval := by
  unfold mailer.ok at hok
  cases hchk : m.checkpoint.ok with
  | some e => rw [hchk] at hok; simp at hok
  | none =>
    rw [hchk] at hok
    unfold interval.ok at hchk
    split_ifs at hchk with h1 h2
    split_ifs at hok with h3 h4
    push_neg at h1 h2
    refine ⟨by omega, by omega, by omega, by omega, by omega⟩

/-- run_eq_sendLoop: when validation passes and the checkpoint end does not
exceed the destination count, `run` is the send loop over the selected
slice. -/
theorem run_eq_sendLoop (m : mailer) (hok : m.ok = none)
    (hend : m.checkpoint.«end» ≤ (m.destinations.length : Int)) :
    m.run = sendLoop m m.slice := by
  obtain ⟨h1, h2, h3, h4, h5⟩ := mailer_ok_facts m hok
  unfold mailer.run
  rw [hok]
  have hc : ¬ (m.normEnd > (m.destinations.length : Int) ∨
      m.checkpoint.start > m.normEnd) := by
    unfold mailer.normEnd
    split_ifs <;> omega
  rw [if_neg hc]

/-- sendLoop_append: destinations that all send cleanly contribute their
trace up front, and the loop continues on the remainder. -/
theorem sendLoop_append (m : mailer) (pre : List String)
    (hpre : ∀ d ∈ pre, trimSpace d ≠ "" →
      m.sendMail [d] m.subject m.emailTemplate = none) (rest : List String) :
    sendLoop m (pre ++ rest) =
      (pre.flatMap (sendStep m) ++ (sendLoop m rest).1, (sendLoop m rest).2) := by
  induction pre with
  | nil => simp
  | cons d pre' ih =>
    have hd := hpre d (by simp)
    have hrest : ∀ d ∈ pre', trimSpace d ≠ "" →
        m.sendMail [d] m.subject m.emailTemplate = none :=
      fun x hx => hpre x (by simp [hx])
    rw [List.cons_append]
    by_cases hb : trimSpace d = ""
    · rw [show sendLoop m (d :: (pre' ++ rest)) = sendLoop m (pre' ++ rest) by
        rw [sendLoop, if_pos hb]]
      rw [ih hrest]
      simp [sendStep, hb]
    · rw [sendLoop, if_neg hb, hd hb]
      rw [ih hrest]
      simp [sendStep, hb]

/-- sendLoop_ok: a loop whose sends all succeed completes with the full
trace. -/
theorem sendLoop_ok (m : mailer) (ds : List String)
    (h : ∀ d ∈ ds, trimSpace d ≠ "" →
      m.sendMail [d] m.subject m.emailTemplate = none) :
    sendLoop m ds = (ds.flatMap (sendStep m), .ok) := by
  have hsl := sendLoop_append m ds h []
  simpa [sendLoop] using hsl

/-- C5: `interval.ok` (the spec's `validate`) fails exactly when start or
end is negative, or start exceeds a nonzero end; in particular it succeeds
on every interval with `0 <= start <= end` or with `end = 0 <= start`.  It
is a pure function, so it has no side effects. -/
theorem interval_ok_spec (i : interval) :
    i.ok ≠ none ↔
      ((i.start < 0 ∨ i.«end» < 0) ∨ (i.start > i.«end» ∧ i.«end» ≠ 0)) := by
  unfold interval.ok
  split_ifs with h1 h2 <;> simp_all <;> tauto

/-- C3: a checkpoint whose end is nonzero and exceeds the destination
count (with start within the list, start at most end, both non-negative
per the data model, and non-negative pacing) passes validation, yet `run`
evaluates the slice expression out of range: the embedding's guarded
indexing reaches the out-of-range branch, where Go panics instead of
returning a validation error. -/
theorem run_out_of_range (m : mailer)
    (hne : m.checkpoint.«end» ≠ 0)
    (hgt : m.checkpoint.«end» > (m.destinations.length : Int))
    (hstart : m.checkpoint.start ≤ (m.destinations.length : Int))
    (hse : m.checkpoint.start ≤ m.checkpoint.«end»)
    (hs0 : 0 ≤ m.checkpoint.start)
    (hsl : 0 ≤ m.sleepInterval) :
    m.ok = none ∧ m.run = ([], .outOfRange) := by
  have hchk : m.checkpoint.ok = none := by
    unfold interval.ok
    split_ifs with h1 h2
    · omega
    · omega
    · rfl
  have hok : m.ok = none := by
    unfold mailer.ok
    rw [hchk]
    rw [if_neg (by omega), if_neg (by omega)]
  refine ⟨hok, ?_⟩
  unfold mailer.run
  rw [hok]
  have hc : m.normEnd > (m.destinations.length : Int) ∨
      m.checkpoint.start > m.normEnd := by
    unfold mailer.normEnd
    rw [if_neg hne]
    omega
  rw [if_pos hc]

/-- run_out_of_range_witness: a concrete job (one destination, checkpoint
end 2) passing validation yet running out of range. -/
theorem run_out_of_range_witness :
    mailerOOR.ok = none ∧ mailerOOR.run = ([], .outOfRange) :=
  run_out_of_range mailerOOR (by decide) (by decide) (by decide) (by decide)
    (by decide) (by decide)

/-- C4: a checkpoint start beyond the destination count, a negative sleep
interval, or an invalid checkpoint interval makes `run` return the
validation error from `ok` with an empty event trace: no send and no sleep
happens. -/
theorem run_validation_no_sends (m : mailer)
    (h : m.checkpoint.start > (m.destinations.length : Int) ∨
      m.sleepInterval < 0 ∨ m.checkpoint.ok ≠ none) :
    ∃ e, m.ok = some e ∧ m.run = ([], .error e) := by
  have hv : ∃ e, m.ok = some e := by
    unfold mailer.ok
    cases hchk : m.checkpoint.ok with
    | some e => exact ⟨e, rfl⟩
    | none =>
      split_ifs with h1 h2
      · exact ⟨_, rfl⟩
      · exact ⟨_, rfl⟩
      · rcases h with h | h | h
        · exact absurd h h1
        · exact absurd h h2
        · exact absurd hchk h
  obtain ⟨e, he⟩ := hv
  refine ⟨e, he, ?_⟩
  unfold mailer.run
  rw [he]

/-- run_validation_no_sends_witness: a concrete job with checkpoint start
1 over an empty destination list fails validation with no events. -/
theorem run_validation_no_sends_witness :
    ∃ e, mailerBadStart.ok = some e ∧ mailerBadStart.run = ([], .error e) :=
  run_validation_no_sends mailerBadStart (by decide)

/-- C9: with a zero checkpoint end, run rewrites the end to the number of
destinations and walks exactly the suffix of the destination list from the
checkpoint start: the indices in [start, len), in list order. -/
theorem run_end_sentinel (m : mailer) (hok : m.ok = none)
    (hend : m.checkpoint.«end» = 0) :
    m.run = sendLoop m (m.destinations.drop m.checkpoint.start.toNat) := by
  obtain ⟨h1, h2, h3, h4, h5⟩ := mailer_ok_facts m hok
  rw [run_eq_sendLoop m hok (by omega)]
  congr 1
  unfold mailer.slice mailer.normEnd
  rw [if_pos hend]
  apply List.take_of_length_le
  rw [List.length_drop]
  omega

/-- run_end_sentinel_witness: the spec's end-sentinel example, a
five-element list with checkpoint end 0 and start 2. -/
theorem run_end_sentinel_witness :
    mailerFive.run =
      sendLoop mailerFive (mailerFive.destinations.drop
        mailerFive.checkpoint.start.toNat) :=
  run_end_sentinel mailerFive (by decide) (by decide)

/-- C10: when validation passes, the slice is in range and the transport
succeeds on every non-blank destination of the slice, run completes, its
trace being exactly one send (followed by the pacing sleep) per non-blank
slice entry in slice order; entries that trim to the empty string
contribute no send and no sleep. -/
theorem run_success_trace (m : mailer) (hok : m.ok = none)
    (hend : m.checkpoint.«end» ≤ (m.destinations.length : Int))
    (hsend : ∀ d ∈ m.slice, trimSpace d ≠ "" →
      m.sendMail [d] m.subject m.emailTemplate = none) :
    m.run = (m.slice.flatMap (sendStep m), .ok) := by
  rw [run_eq_sendLoop m hok hend]
  exact sendLoop_ok m m.slice hsend

/-- run_success_trace_witness: a concrete job with a whitespace-only entry
between two real destinations: both real entries are sent once, the blank
one adds no event. -/
theorem run_success_trace_witness :
    mailerBlank.run = (mailerBlank.slice.flatMap (sendStep mailerBlank), .ok) :=
  run_success_trace mailerBlank (by decide) (by decide) (by decide)

/-- run_fail_aux: shared shape of a failing run.  If the slice splits as
pre ++ bad :: post where all non-blank destinations of pre send cleanly,
bad is non-blank and its send fails with cause e, then run's trace is
exactly the sends (with pacing sleeps) of pre's non-blank entries followed
by the single attempt of bad, and the outcome is the unchanged error e:
post is never attempted, bad is not retried, and pre's sends stand. -/
theorem run_fail_aux (m : mailer) (pre : List String) (bad : String)
    (post : List String) (e : String) (hok : m.ok = none)
    (hend : m.checkpoint.«end» ≤ (m.destinations.length : Int))
    (hslice : m.slice = pre ++ bad :: post)
    (hpre : ∀ d ∈ pre, trimSpace d ≠ "" →
      m.sendMail [d] m.subject m.emailTemplate = none)
    (hbad : trimSpace bad ≠ "")
    (hfail : m.sendMail [bad] m.subject m.emailTemplate = some e) :
    m.run = (pre.flatMap (sendStep m) ++
      [.send [bad] m.subject m.emailTemplate], .error e) := by
  rw [run_eq_sendLoop m hok hend, hslice, sendLoop_append m pre hpre]
  rw [show sendLoop m (bad :: post) =
      ([.send [bad] m.subject m.emailTemplate], .error e) by
    rw [sendLoop, if_neg hbad, hfail]]

/-- C1: fail-fast.  Under the hypotheses of a transport failure at the
first failing non-blank destination `bad` of the slice, run stops
immediately with the transport error: its final trace holds the earlier
sends (not undone) and exactly one attempt of `bad` (no retry), and no
destination after `bad` is ever attempted. -/
theorem run_fail_fast (m : mailer) (pre : List String) (bad : String)
    (post : List String) (e : String) (hok : m.ok = none)
    (hend : m.checkpoint.«end» ≤ (m.destinations.length : Int))
    (hslice : m.slice = pre ++ bad :: post)
    (hpre : ∀ d ∈ pre, trimSpace d ≠ "" →
      m.sendMail [d] m.subject m.emailTemplate = none)
    (hbad : trimSpace bad ≠ "")
    (hfail : m.sendMail [bad] m.subject m.emailTemplate = some e) :
    m.run = (pre.flatMap (sendStep m) ++
      [.send [bad] m.subject m.emailTemplate], .error e) :=
  run_fail_aux m pre bad post e hok hend hslice hpre hbad hfail

/-- run_fail_fast_witness: the spec's example, destinations a@x, b@x, c@x
with the transport failing on b@x: a@x is sent, b@x attempted once,
c@x never attempted, outcome the transport error. -/
theorem run_fail_fast_witness :
    mailerABC.run = ((["a@x"] : List String).flatMap (sendStep mailerABC) ++
      [.send ["b@x"] mailerABC.subject mailerABC.emailTemplate], .error "boom") :=
  run_fail_fast mailerABC ["a@x"] "b@x" ["c@x"] "boom" (by decide) (by decide)
    (by decide) (by decide) (by decide) (by decide)

/-- C2 counterexample: two jobs failing at different addresses ("a@x" and
"z@y") produce the same run outcome `error "boom"`, so the error run
returns cannot identify the failing address (no function recovers the
failing address from the outcome). -/
theorem run_error_no_address :
    (mailerA.run).2 = .error "boom" ∧ (mailerZ.run).2 = .error "boom" ∧
      ¬ ∃ f : RunOutcome → String,
        f (mailerA.run).2 = "a@x" ∧ f (mailerZ.run).2 = "z@y" := by
  refine ⟨rfl, rfl, ?_⟩
  rintro ⟨f, hA, hZ⟩
  have hsame : (mailerA.run).2 = (mailerZ.run).2 := rfl
  rw [hsame, hZ] at hA
  exact absurd hA (by decide)

/-- C2 amended: when the transport fails on an address, run returns the
transport's underlying error unchanged — the cause alone, with no failing
address or index attached. -/
theorem run_error_is_cause (m : mailer) (pre : List String) (bad : String)
    (post : List String) (e : String) (hok : m.ok = none)
    (hend : m.checkpoint.«end» ≤ (m.destinations.length : Int))
    (hslice : m.slice = pre ++ bad :: post)
    (hpre : ∀ d ∈ pre, trimSpace d ≠ "" →
      m.sendMail [d] m.subject m.emailTemplate = none)
    (hbad : trimSpace bad ≠ "")
    (hfail : m.sendMail [bad] m.subject m.emailTemplate = some e) :
    (m.run).2 = .error e := by
  rw [run_fail_aux m pre bad post e hok hend hslice hpre hbad hfail]

/-- run_error_is_cause_witness: on the spec's example the outcome is
exactly the transport's error "boom". -/
theorem run_error_is_cause_witness : (mailerABC.run).2 = .error "boom" :=
  run_error_is_cause mailerABC ["a@x"] "b@x" ["c@x"] "boom" (by decide)
    (by decide) (by decide) (by decide) (by decide) (by decide)

/-- resolveLoop_append: descriptors that all update cleanly contribute
their lookups up front, and the loop continues on the remainder from some
accumulator. -/
theorem resolveLoop_append (parse : String → Except String String)
    (store : List (Int × String)) (pre : List MailerDestination)
    (hpre : ∀ d ∈ pre, ∃ d', updateEmail parse store d = .ok d')
    (rest : List MailerDestination) :
    ∀ acc, ∃ acc', resolveLoop parse store (pre ++ rest) acc =
      (pre.map (·.id) ++ (resolveLoop parse store rest acc').1,
        (resolveLoop parse store rest acc').2) := by
  induction pre with
  | nil =>
    intro acc
    exact ⟨acc, by simp⟩
  | cons d pre' ih =>
    intro acc
    obtain ⟨d', hd⟩ := hpre d (by simp)
    have hrest : ∀ x ∈ pre', ∃ x', updateEmail parse store x = .ok x' :=
      fun x hx => hpre x (by simp [hx])
    rw [List.cons_append, resolveLoop, hd]
    simp only
    obtain ⟨acc'', hih⟩ := ih hrest _
    refine ⟨acc'', ?_⟩
    rw [hih]
    simp

/-- C7: a failing lookup aborts resolution at once: the result is that
very failure (so no destination list at all), the failing descriptor's
lookup is the last one in the trace, and no descriptor after it is ever
looked up. -/
theorem resolve_lookup_failure (parse : String → Except String String)
    (store : List (Int × String)) (pre : List MailerDestination)
    (c : MailerDestination) (post : List MailerDestination) (e : String)
    (hpre : ∀ d ∈ pre, ∃ d', updateEmail parse store d = .ok d')
    (hfail : selectOne store c.id = .error e) :
    resolveDestinations parse store (pre ++ c :: post) =
      (pre.map (·.id) ++ [c.id], .error e) := by
  have hup : updateEmail parse store c = .error e := by
    unfold updateEmail
    rw [hfail]
  obtain ⟨acc', h⟩ := resolveLoop_append parse store pre hpre (c :: post) []
  unfold resolveDestinations
  rw [h]
  rw [show resolveLoop parse store (c :: post) acc' = ([c.id], .error e) by
    rw [resolveLoop, hup]]
  simp [Except.map]

/-- wStoreC7 is the witness store for the lookup-failure claim: only
registration 1 has a row. -/
def wStoreC7 : List (Int × String) := [(1, "a@x")]

/-- resolve_lookup_failure_witness: with descriptors 1, 2, 3 and a store
holding only id 1, resolution looks up 1 then 2, fails there, and never
looks up 3. -/
theorem resolve_lookup_failure_witness :
    resolveDestinations parseId wStoreC7
        [⟨1, "", ""⟩, ⟨2, "", ""⟩, ⟨3, "", ""⟩] =
      ([1, 2], .error "sql: no rows in result set") :=
  resolve_lookup_failure parseId wStoreC7 [⟨1, "", ""⟩] ⟨2, "", ""⟩
    [⟨3, "", ""⟩] "sql: no rows in result set"
    (by
      rintro d hd
      rw [List.mem_singleton] at hd
      subst hd
      exact ⟨_, rfl⟩)
    rfl

/-- resolveLoop_skip: a descriptor that updates cleanly to a blank email
leaves the loop's result untouched wherever it sits in the input. -/
theorem resolveLoop_skip (parse : String → Except String String)
    (store : List (Int × String)) (c c' : MailerDestination)
    (hup : updateEmail parse store c = .ok c')
    (hblank : trimSpace c'.email = "") (pre : List MailerDestination) :
    ∀ post acc, (resolveLoop parse store (pre ++ c :: post) acc).2 =
      (resolveLoop parse store (pre ++ post) acc).2 := by
  induction pre with
  | nil =>
    intro post acc
    rw [List.nil_append, List.nil_append, resolveLoop, hup]
    simp [hblank]
  | cons d pre' ih =>
    intro post acc
    rw [List.cons_append, List.cons_append, resolveLoop, resolveLoop]
    cases hud : updateEmail parse store d with
    | error e => rfl
    | ok d' =>
      simp only
      exact ih post _

/-- C6 counterexample: a descriptor whose contact is the stored literal
'null' is not silently skipped — the lookup finds no row and resolution
fails, whereas without that descriptor resolution succeeds. -/
theorem resolve_null_contact_not_skipped :
    (resolveDestinations parseId [(1, "null")] [⟨1, "", ""⟩]).2 =
      .error "sql: no rows in result set" ∧
    (resolveDestinations parseId [(1, "null")]
      ([] : List MailerDestination)).2 = .ok [] :=
  ⟨rfl, rfl⟩

/-- C6 amended: a descriptor whose contact row is present and parses to a
blank email (in particular an empty one) is silently skipped: it
contributes no entry to the destination list and does not make resolve
fail — the result is the same as without it. -/
theorem resolve_blank_email_skipped (parse : String → Except String String)
    (store : List (Int × String)) (c c' : MailerDestination)
    (pre post : List MailerDestination)
    (hup : updateEmail parse store c = .ok c')
    (hblank : trimSpace c'.email = "") :
    (resolveDestinations parse store (pre ++ c :: post)).2 =
      (resolveDestinations parse store (pre ++ post)).2 := by
  unfold resolveDestinations
  simp only
  rw [resolveLoop_skip parse store c c' hup hblank pre post []]

/-- wStoreC6 is the witness store for the blank-skip claim: registration 1
has a whitespace-only contact, registration 2 a real one. -/
def wStoreC6 : List (Int × String) := [(1, "  "), (2, "a@x")]

/-- resolve_blank_email_skipped_witness: the whitespace-contact descriptor
changes nothing about the resolved destination list. -/
theorem resolve_blank_email_skipped_witness :
    (resolveDestinations parseId wStoreC6 [⟨1, "", ""⟩, ⟨2, "", ""⟩]).2 =
      (resolveDestinations parseId wStoreC6 [⟨2, "", ""⟩]).2 :=
  resolve_blank_email_skipped parseId wStoreC6 ⟨1, "", ""⟩ ⟨1, "  ", "  "⟩
    [] [⟨2, "", ""⟩] rfl (by decide)

/-- resolveLoop_ok_spec: a successful resolve loop returns a
duplicate-free list of non-blank emails, whose members are the incoming
accumulator's plus exactly the non-blank emails the descriptors resolve
to. -/
theorem resolveLoop_ok_spec (parse : String → Except String String)
    (store : List (Int × String)) (cs : List MailerDestination) :
    ∀ (acc out : List String),
      (resolveLoop parse store cs acc).2 = .ok out →
      acc.Nodup → (∀ a ∈ acc, trimSpace a ≠ "") →
      out.Nodup ∧ (∀ a ∈ out, trimSpace a ≠ "") ∧
      (∀ a, a ∈ out ↔ a ∈ acc ∨
        ∃ c ∈ cs, emailOf parse store c = some a ∧ trimSpace a ≠ "") := by
  induction cs with
  | nil =>
    intro acc out hout hnd hnb
    rw [resolveLoop] at hout
    dsimp only at hout
    injection hout with h
    subst h
    exact ⟨hnd, hnb, fun a => by simp⟩
  | cons c cs' ih =>
    intro acc out hout hnd hnb
    rw [resolveLoop] at hout
    cases hup : updateEmail parse store c with
    | error e =>
      rw [hup] at hout
      simp at hout
    | ok c' =>
      rw [hup] at hout
      dsimp only at hout
      have hec : emailOf parse store c = some c'.email := by
        unfold emailOf
        rw [hup]
      by_cases hb : trimSpace c'.email = ""
      · rw [if_pos hb] at hout
        obtain ⟨h1, h2, h3⟩ := ih acc out hout hnd hnb
        refine ⟨h1, h2, fun a => ?_⟩
        rw [h3 a, List.exists_mem_cons_iff]
        constructor
        · rintro (h | h)
          · exact Or.inl h
          · exact Or.inr (Or.inr h)
        · rintro (h | ⟨heq, hne⟩ | h)
          · exact Or.inl h
          · rw [hec] at heq
            injection heq with h
            subst h
            exact absurd hb hne
          · exact Or.inr h
      · rw [if_neg hb] at hout
        by_cases hm : c'.email ∈ acc
        · rw [if_pos hm] at hout
          obtain ⟨h1, h2, h3⟩ := ih acc out hout hnd hnb
          refine ⟨h1, h2, fun a => ?_⟩
          rw [h3 a, List.exists_mem_cons_iff]
          constructor
          · rintro (h | h)
            · exact Or.inl h
            · exact Or.inr (Or.inr h)
          · rintro (h | ⟨heq, hne⟩ | h)
            · exact Or.inl h
            · rw [hec] at heq
              injection heq with h
              subst h
              exact Or.inl hm
            · exact Or.inr h
        · rw [if_neg hm] at hout
          have hnd' : (acc ++ [c'.email]).Nodup := by
            simp [List.nodup_append, hnd, hm]
          have hnb' : ∀ a ∈ acc ++ [c'.email], trimSpace a ≠ "" := by
            intro a ha
            rcases List.mem_append.mp ha with h | h
            · exact hnb a h
            · rw [List.mem_singleton] at h
              subst h
              exact hb
          obtain ⟨h1, h2, h3⟩ := ih _ out hout hnd' hnb'
          refine ⟨h1, h2, fun a => ?_⟩
          rw [h3 a, List.exists_mem_cons_iff]
          simp only [List.mem_append, List.mem_singleton]
          constructor
          · rintro ((h | h) | h)
            · exact Or.inl h
            · subst h
              exact Or.inr (Or.inl ⟨hec, hb⟩)
            · exact Or.inr (Or.inr h)
          · rintro (h | ⟨heq, hne⟩ | h)
            · exact Or.inl (Or.inl h)
            · rw [hec] at heq
              injection heq with h
              subst h
              exact Or.inl (Or.inr rfl)
            · exact Or.inr h

/-- resolveDestinations_ok_shape: a successful resolution is the sorted
rendering of a successful loop. -/
theorem resolveDestinations_ok_shape (parse : String → Except String String)
    (store : List (Int × String)) (contacts : List MailerDestination)
    (l : List String)
    (hok : (resolveDestinations parse store contacts).2 = .ok l) :
    ∃ out, (resolveLoop parse store contacts []).2 = .ok out ∧
      l = sortStrings out := by
  unfold resolveDestinations at hok
  dsimp only at hok
  cases hr : (resolveLoop parse store contacts []).2 with
  | error e =>
    rw [hr] at hok
    simp [Except.map] at hok
  | ok out =>
    rw [hr] at hok
    simp [Except.map] at hok
    exact ⟨out, rfl, hok.symm⟩

/-- resolve_ok_props: a successful resolution is sorted, duplicate-free,
and holds exactly the non-blank emails the descriptors resolve to. -/
theorem resolve_ok_props (parse : String → Except String String)
    (store : List (Int × String)) (contacts : List MailerDestination)
    (l : List String)
    (hok : (resolveDestinations parse store contacts).2 = .ok l) :
    l.Sorted (fun a b => strLe a b = true) ∧ l.Nodup ∧
    (∀ a, a ∈ l ↔
      ∃ c ∈ contacts, emailOf parse store c = some a ∧ trimSpace a ≠ "") := by
  obtain ⟨out, hr, rfl⟩ :=
    resolveDestinations_ok_shape parse store contacts l hok
  obtain ⟨hnd, hnb, hmem⟩ :=
    resolveLoop_ok_spec parse store contacts [] out hr (by simp) (by simp)
  have hperm : List.Perm (sortStrings out) out := List.perm_insertionSort _ out
  refine ⟨List.sorted_insertionSort _ out, hperm.nodup_iff.mpr hnd, fun a => ?_⟩
  rw [hperm.mem_iff, hmem a]
  simp

/-- C8: a successful resolution is sorted in ascending lexicographic
(byte-wise) order, has no duplicates and no blank entries, holds each
resolved non-blank email exactly once however many descriptors resolved to
it, and is a pure function of the set of resolved emails: any descriptor
list resolving to the same email set yields the same list. -/
theorem resolve_sorted_dedup (parse : String → Except String String)
    (store : List (Int × String)) (contacts : List MailerDestination)
    (l : List String)
    (hok : (resolveDestinations parse store contacts).2 = .ok l) :
    l.Sorted (fun a b => strLe a b = true) ∧ l.Nodup ∧
    (∀ a ∈ l, trimSpace a ≠ "") ∧
    (∀ a, a ∈ l ↔
      ∃ c ∈ contacts, emailOf parse store c = some a ∧ trimSpace a ≠ "") ∧
    (∀ a ∈ l, l.count a = 1) ∧
    (∀ (contacts' : List MailerDestination) (l' : List String),
      (resolveDestinations parse store contacts').2 = .ok l' →
      (∀ a, (∃ c ∈ contacts', emailOf parse store c = some a ∧
          trimSpace a ≠ "") ↔
        (∃ c ∈ contacts, emailOf parse store c = some a ∧ trimSpace a ≠ "")) →
      l' = l) := by
  obtain ⟨hsorted, hnd, hmem⟩ := resolve_ok_props parse store contacts l hok
  refine ⟨hsorted, hnd, ?_, hmem, ?_, ?_⟩
  · intro a ha
    obtain ⟨c, _, _, hne⟩ := (hmem a).mp ha
    exact hne
  · intro a ha
    exact List.count_eq_one_of_mem hnd ha
  · intro contacts' l' hok' hiff
    obtain ⟨hsorted', hnd', hmem'⟩ :=
      resolve_ok_props parse store contacts' l' hok'
    have hsame : ∀ a, a ∈ l' ↔ a ∈ l := by
      intro a
      rw [hmem' a, hiff a, ← hmem a]
    have hperm : List.Perm l' l :=
      (List.perm_ext_iff_of_nodup hnd' hnd).mpr hsame
    exact List.eq_of_perm_of_sorted hperm hsorted' hsorted

/-- wStoreC8 is the witness store for the sorted-dedup claim: ids 1, 2, 3
carry contacts b@x, a@x, a@x. -/
def wStoreC8 : List (Int × String) := [(1, "b@x"), (2, "a@x"), (3, "a@x")]

/-- wContactsC8 is the witness descriptor list for the sorted-dedup
claim. -/
def wContactsC8 : List MailerDestination :=
  [⟨1, "", ""⟩, ⟨2, "", ""⟩, ⟨3, "", ""⟩]

/-- resolve_sorted_dedup_witness: the spec's sort-stability example,
descriptors resolving to b@x, a@x, a@x yield exactly ["a@x", "b@x"]. -/
theorem resolve_sorted_dedup_witness :
    (["a@x", "b@x"] : List String).Sorted (fun a b => strLe a b = true) ∧
    (["a@x", "b@x"] : List String).Nodup ∧
    (∀ a ∈ (["a@x", "b@x"] : List String), trimSpace a ≠ "") ∧
    (∀ a, a ∈ (["a@x", "b@x"] : List String) ↔
      ∃ c ∈ wContactsC8, emailOf parseId wStoreC8 c = some a ∧
        trimSpace a ≠ "") ∧
    (∀ a ∈ (["a@x", "b@x"] : List String),
      (["a@x", "b@x"] : List String).count a = 1) ∧
    (∀ (contacts' : List MailerDestination) (l' : List String),
      (resolveDestinations parseId wStoreC8 contacts').2 = .ok l' →
      (∀ a, (∃ c ∈ contacts', emailOf parseId wStoreC8 c = some a ∧
          trimSpace a ≠ "") ↔
        (∃ c ∈ wContactsC8, emailOf parseId wStoreC8 c = some a ∧
          trimSpace a ≠ "")) →
      l' = ["a@x", "b@x"]) :=
  resolve_sorted_dedup parseId wStoreC8 wContactsC8 ["a@x", "b@x"] rfl
